import Mathlib

/-!
Verification of the backend game engine of `grpc-game-example`
(`src/pkg/backend/backend.go`, client construction in `src/cmd/client.go`).

The engine is embedded shallowly:

* Go maps (`Entities`, `Score`, `LastAction`) become association lists with
  Go-map semantics (assignment replaces the entry at the key, `delete` drops
  it, a read of a missing key yields the zero value).  Go's map iteration
  order is unspecified; the list order is the deterministic representative
  used for iteration.
* The mutex `Mu` only serializes the store operations; every claim below is
  about one serialized execution, so the lock itself needs no model.
* `time.Now()` becomes an explicit millisecond timestamp argument (`Int`).
* The two capacity-1 channels: `ActionChannel`'s consumer applies actions one
  at a time (so `Perform` is a state transformer), and `ChangeChannel`'s
  non-blocking `select`-with-`default` send is `trySendChange` on an
  `Option Change` slot.  The pure functions return the list of Changes they
  offer to the channel.
* Go panics (failed type assertions in `Game.Move`) become `Option.none`.
-/

/-- Entity identities (`uuid.UUID`); only equality of identities matters. -/
abbrev UUID := Nat

/-- Coordinate is used for all position-related variables (Go `int` fields X, Y). -/
structure Coordinate where
  X : Int
  Y : Int
deriving DecidableEq, Repr

/-- Direction constants - DirectionStop will take no effect. -/
inductive Direction where
  | DirectionUp
  | DirectionDown
  | DirectionLeft
  | DirectionRight
  | DirectionStop
deriving DecidableEq, Repr

/-- Modelled from the spec: the concrete entity variants are declared in this
repository outside the inspected source tree (only the engine in
`src/pkg/backend/backend.go` that manipulates them is available).  Spec §3: a
Player carries an identity, a grid position and accumulated respawns; a Laser
carries an identity, its owning player's identity, a grid position and a
direction of travel.  Both are Identifiable and Positioned.  Only the Player
is Movable: spec §4.1 and §9 make movement a capability not every entity has,
and a Laser's position follows its direction of travel rather than `Move`
calls, so the `Mover` type assertion in `Game.Move` fails on a Laser. -/
inductive Entity where
  | player (id : UUID) (pos : Coordinate) (respawns : Nat)
  | laser (id : UUID) (ownerID : UUID) (pos : Coordinate) (dir : Direction)
deriving DecidableEq, Repr

/-- `Identifier.ID()`. -/
def Entity.id : Entity → UUID
  | .player i _ _ => i
  | .laser i _ _ _ => i

/-- `Positioner.Position()` (both variants are `Positioner`s). -/
def Entity.position : Entity → Coordinate
  | .player _ p _ => p
  | .laser _ _ p _ => p

/-- Whether the dynamic type satisfies the `Mover` interface (see the
`Entity` doc comment: Player yes, Laser no). -/
def Entity.movable : Entity → Bool
  | .player _ _ _ => true
  | .laser _ _ _ _ => false

/-- `Mover.Move(c)`: update the position in place.  Only reached through a
successful `Mover` type assertion, hence only on a player. -/
def Entity.moveTo : Entity → Coordinate → Entity
  | .player i _ r, c => .player i c r
  | .laser i o p d, _ => .laser i o p d

/-- Change is sent by the game engine in response to Actions
(`MoveChange`, `AddEntityChange`, `RemoveEntityChange`, `PlayerRespawnChange`).
The entity payloads are Go pointers; the values recorded here are the entity
states observable through those pointers once the emitting statement has run. -/
inductive Change where
  | moveChange (entity : Entity) (direction : Direction) (position : Coordinate)
  | addEntityChange (entity : Entity)
  | removeEntityChange (entity : Entity)
  | playerRespawnChange (player : Entity)
deriving DecidableEq, Repr

/-- Go map read `m[k]` returning `(value, ok)`. -/
def lookupEntity : List (UUID × Entity) → UUID → Option Entity
  | [], _ => none
  | (k, e) :: rest, i => if k = i then some e else lookupEntity rest i

/-- Go map assignment `m[k] = v`: replace the entry at `k`, else append. -/
def insertEntity : List (UUID × Entity) → UUID → Entity → List (UUID × Entity)
  | [], k, v => [(k, v)]
  | (k', v') :: rest, k, v =>
      if k' = k then (k, v) :: rest else (k', v') :: insertEntity rest k v

/-- Go `delete(m, k)`. -/
def eraseEntity : List (UUID × Entity) → UUID → List (UUID × Entity)
  | [], _ => []
  | (k', v') :: rest, k =>
      if k' = k then eraseEntity rest k else (k', v') :: eraseEntity rest k

/-- In-place mutation `m[id].(Mover).Move(pos)` as seen by the map: the entry
at `id` now holds the moved entity, everything else is untouched. -/
def moveInStore : List (UUID × Entity) → UUID → Coordinate → List (UUID × Entity)
  | [], _, _ => []
  | (k, e) :: rest, i, pos =>
      if k = i then (k, e.moveTo pos) :: rest else (k, e) :: moveInStore rest i pos

/-- Go map read of `Score` (missing key reads as the zero value 0). -/
def scoreGet : List (UUID × Int) → UUID → Int
  | [], _ => 0
  | (k, n) :: rest, i => if k = i then n else scoreGet rest i

/-- Go map assignment on `Score`. -/
def scoreSet : List (UUID × Int) → UUID → Int → List (UUID × Int)
  | [], k, v => [(k, v)]
  | (k', v') :: rest, k, v =>
      if k' = k then (k, v) :: rest else (k', v') :: scoreSet rest k v

/-- `game.Score[owner]++` (read the zero value on a missing key, add one). -/
def scoreInc (s : List (UUID × Int)) (owner : UUID) : List (UUID × Int) :=
  scoreSet s owner (scoreGet s owner + 1)

/-- Throttle keys: `fmt.Sprintf("%T:%s", action, id)` pairs the action's
dynamic type name with the entity identity. -/
abbrev ActionKey := String × UUID

/-- Go map read `game.LastAction[key]` returning `(t, ok)`. -/
def lookupTime : List (ActionKey × Int) → ActionKey → Option Int
  | [], _ => none
  | (k, t) :: rest, key => if k = key then some t else lookupTime rest key

/-- Go map assignment `game.LastAction[key] = t`. -/
def insertTime : List (ActionKey × Int) → ActionKey → Int → List (ActionKey × Int)
  | [], k, t => [(k, t)]
  | (k', t') :: rest, k, t =>
      if k' = k then (k, t) :: rest else (k', t') :: insertTime rest k t

/-- Game is the backend engine for the game (struct `Game`).  The two
channels are modelled outside the record (see the file header); `Mu` needs no
model in a serialized execution. -/
structure Game where
  Entities : List (UUID × Entity)
  LastAction : List (ActionKey × Int)
  Score : List (UUID × Int)
  IsAuthoritative : Bool
deriving DecidableEq, Repr

/-- NewGame constructs a new Game struct (empty maps, `IsAuthoritative: true`). -/
def NewGame : Game :=
  { Entities := []
    LastAction := []
    Score := []
    IsAuthoritative := true }

/-- `game.AddEntity(entity)`: `game.Entities[entity.ID()] = entity`. -/
def Game.AddEntity (game : Game) (entity : Entity) : Game :=
  { game with Entities := insertEntity game.Entities entity.id entity }

/-- `game.UpdateEntity(entity)`: `game.Entities[entity.ID()] = entity`. -/
def Game.UpdateEntity (game : Game) (entity : Entity) : Game :=
  { game with Entities := insertEntity game.Entities entity.id entity }

/-- `game.GetEntity(id)`: map read, `none` when absent. -/
def Game.GetEntity (game : Game) (i : UUID) : Option Entity :=
  lookupEntity game.Entities i

/-- `game.RemoveEntity(id)`: `delete(game.Entities, id)`. -/
def Game.RemoveEntity (game : Game) (i : UUID) : Game :=
  { game with Entities := eraseEntity game.Entities i }

/-- `game.Move(id, position)` runs `game.Entities[id].(Mover).Move(position)`.
The read of a missing key yields a nil interface and the `Mover` type
assertion on nil, or on an entity that is not a `Mover`, panics: both fatal
branches are `none`. -/
def Game.Move (game : Game) (i : UUID) (position : Coordinate) : Option Game :=
  match lookupEntity game.Entities i with
  | none => none
  | some e =>
      if e.movable then
        some { game with Entities := moveInStore game.Entities i position }
      else none

/-- `game.CheckLastActionTime(actionKey, throttle)`: false (reject) iff the
key is present and its timestamp is strictly after `now - throttle` ms. -/
def Game.CheckLastActionTime (game : Game) (actionKey : ActionKey)
    (throttle : Int) (now : Int) : Bool :=
  match lookupTime game.LastAction actionKey with
  | none => true
  | some lastAction => decide (lastAction ≤ now - throttle)

/-- `game.UpdateLastActionTime(actionKey)` stamps the key with `time.Now()`. -/
def Game.UpdateLastActionTime (game : Game) (actionKey : ActionKey)
    (now : Int) : Game :=
  { game with LastAction := insertTime game.LastAction actionKey now }

/-- The non-blocking send `select { case ch <- change: default: }` on the
capacity-1 `ChangeChannel`, whose buffer is an `Option Change` slot: an empty
slot accepts the Change, an occupied slot drops the new Change and keeps the
old one. -/
def trySendChange (slot : Option Change) (change : Change) : Option Change :=
  match slot with
  | none => some change
  | some old => some old

/-- One-cell displacement of `MoveAction.Perform`'s `switch action.Direction`
(no case for `DirectionStop`, so the position is left unchanged). -/
def Coordinate.step (position : Coordinate) : Direction → Coordinate
  | .DirectionUp => { position with Y := position.Y - 1 }
  | .DirectionDown => { position with Y := position.Y + 1 }
  | .DirectionLeft => { position with X := position.X - 1 }
  | .DirectionRight => { position with X := position.X + 1 }
  | .DirectionStop => position

/-- MoveAction is sent when a user presses an arrow key. -/
structure MoveAction where
  Direction : Direction
  ID : UUID
deriving DecidableEq, Repr

/-- The throttle key `fmt.Sprintf("%T:%s", action, entity.ID().String())`
of a `MoveAction`. -/
def moveActionKey (i : UUID) : ActionKey :=
  ("backend.MoveAction", i)

/-- `MoveAction.Perform(game)`.  Returns `none` when the Go code panics
(`game.Move` on a non-movable target), otherwise the resulting game state
and the Change offered to the `ChangeChannel` (if any).  An unknown entity
and a throttled action are silent no-ops. -/
def MoveAction.Perform (action : MoveAction) (game : Game) (now : Int) :
    Option (Game × Option Change) :=
  match lookupEntity game.Entities action.ID with
  | none => some (game, none)
  | some entity =>
      let actionKey := moveActionKey entity.id
      if game.CheckLastActionTime actionKey 50 now then
        let position := entity.position.step action.Direction
        match game.Move entity.id position with
        | none => none
        | some game1 =>
            let change := Change.moveChange (entity.moveTo position)
              action.Direction position
            some (game1.UpdateLastActionTime actionKey now, some change)
      else some (game, none)

/-- `collisionMap[position] = append(collisionMap[position], positioner)`:
append the entity to its coordinate's bucket, creating the bucket at the end
on first encounter. -/
def bucketAdd : List (Coordinate × List Entity) → Coordinate → Entity →
    List (Coordinate × List Entity)
  | [], c, e => [(c, [e])]
  | (c', es) :: rest, c, e =>
      if c' = c then (c', es ++ [e]) :: rest else (c', es) :: bucketAdd rest c e

/-- The snapshot taken under `RLock`: every entity (both variants are
`Positioner`s, so the `Positioner` type assertion never filters anything out)
is grouped by its current position.  Go's map iteration order is unspecified;
the store list's order is the representative order. -/
def buildCollisionMap (entities : List (UUID × Entity)) :
    List (Coordinate × List Entity) :=
  entities.foldl (fun m p => bucketAdd m p.2.position p.2) []

/-- The `hasLaser` scan: the owner of the first Laser in the bucket, in
bucket order (`break` on the first hit). -/
def findLaserOwner : List Entity → Option UUID
  | [] => none
  | .laser _ owner _ _ :: _ => some owner
  | .player _ _ _ :: rest => findLaserOwner rest

/-- The body of the collision loop's `switch entity.(type)` for one snapshot
entity of a laser-containing bucket, threading the store and the list of
Changes offered to the `ChangeChannel`:

* a Laser offers a `RemoveEntityChange` and is removed from the store;
* a Player is moved to the origin via `game.Move` (the player is present and
  movable, so the fatal branch of `Game.Move` is unreachable and the move is
  the total `moveInStore` update), offers a `PlayerRespawnChange` (the
  pointer in the Change shows the already-updated origin position), and, when
  its identity differs from the credited owner, increments that owner's
  score. -/
def resolveHit (laserOwnerID : UUID) (acc : Game × List Change) :
    Entity → Game × List Change
  | .laser i o p d =>
      (acc.1.RemoveEntity i,
       acc.2 ++ [Change.removeEntityChange (.laser i o p d)])
  | .player i _ r =>
      let game1 := { acc.1 with Entities := moveInStore acc.1.Entities i ⟨0, 0⟩ }
      let changes1 := acc.2 ++
        [Change.playerRespawnChange (.player i ⟨0, 0⟩ r)]
      if i ≠ laserOwnerID then
        ({ game1 with Score := scoreInc game1.Score laserOwnerID }, changes1)
      else (game1, changes1)

/-- One coordinate bucket of the collision map: buckets with at most one
occupant and buckets without a Laser are ignored; otherwise every snapshot
entity of the bucket is resolved against the credited laser owner. -/
def resolveBucket (acc : Game × List Change) (entities : List Entity) :
    Game × List Change :=
  if entities.length ≤ 1 then acc
  else
    match findLaserOwner entities with
    | none => acc
    | some laserOwnerID => entities.foldl (resolveHit laserOwnerID) acc

/-- One 20 ms tick of the collision loop body: snapshot, then resolve every
bucket, returning the new state and the Changes offered to the channel. -/
def collisionTick (game : Game) : Game × List Change :=
  (buildCollisionMap game.Entities).foldl
    (fun acc p => resolveBucket acc p.2) (game, [])

/-- `n` consecutive collision ticks, concatenating the offered Changes. -/
def collisionTicks : Game → Nat → Game × List Change
  | game, 0 => (game, [])
  | game, n + 1 =>
      ((collisionTicks (collisionTick game).1 n).1,
       (collisionTick game).2 ++ (collisionTicks (collisionTick game).1 n).2)

/-- The collision half of `Game.Start` observed for `n` ticks: the goroutine
is only launched when `IsAuthoritative` holds (`if !game.IsAuthoritative
{ return }`), so a non-authoritative instance runs no tick at all. -/
def startCollisionLoop (game : Game) (n : Nat) : Game × List Change :=
  if game.IsAuthoritative then collisionTicks game n else (game, [])

/-- The client's construction sequence (`src/cmd/client.go`, `main`):
`game := backend.NewGame()` followed by the field assignment
`game.IsAuthoritative = false` before `game.Start()`. -/
def clientGame : Game :=
  { NewGame with IsAuthoritative := false }

/-! ### Association-list lemmas -/

theorem lookupEntity_insert_self (l : List (UUID × Entity)) (k : UUID) (v : Entity) :
    lookupEntity (insertEntity l k v) k = some v := by
  induction l with
  | nil => simp [insertEntity, lookupEntity]
  | cons hd tl ih =>
      obtain ⟨k', v'⟩ := hd
      by_cases h : k' = k
      · simp [insertEntity, h, lookupEntity]
      · simp [insertEntity, h, lookupEntity, ih]

theorem lookupEntity_eq_none (l : List (UUID × Entity)) (k : UUID)
    (h : k ∉ l.map Prod.fst) : lookupEntity l k = none := by
  induction l with
  | nil => rfl
  | cons hd tl ih =>
      obtain ⟨k', v'⟩ := hd
      simp only [List.map_cons, List.mem_cons] at h
      push_neg at h
      have h1 : ¬ k' = k := fun hk => h.1 hk.symm
      simp [lookupEntity, h1, ih h.2]

theorem eraseEntity_eq_self (l : List (UUID × Entity)) (k : UUID)
    (h : k ∉ l.map Prod.fst) : eraseEntity l k = l := by
  induction l with
  | nil => rfl
  | cons hd tl ih =>
      obtain ⟨k', v'⟩ := hd
      simp only [List.map_cons, List.mem_cons] at h
      push_neg at h
      have h1 : ¬ k' = k := fun hk => h.1 hk.symm
      simp [eraseEntity, h1, ih h.2]

theorem lookupEntity_moveInStore_self (l : List (UUID × Entity)) (i : UUID)
    (pos : Coordinate) :
    lookupEntity (moveInStore l i pos) i =
      (lookupEntity l i).map (fun e => e.moveTo pos) := by
  induction l with
  | nil => rfl
  | cons hd tl ih =>
      obtain ⟨k, e⟩ := hd
      by_cases h : k = i
      · simp [moveInStore, lookupEntity, h]
      · simp [moveInStore, lookupEntity, h, ih]

theorem lookupEntity_moveInStore_ne (l : List (UUID × Entity)) (i j : UUID)
    (pos : Coordinate) (h : i ≠ j) :
    lookupEntity (moveInStore l j pos) i = lookupEntity l i := by
  induction l with
  | nil => rfl
  | cons hd tl ih =>
      obtain ⟨k, e⟩ := hd
      by_cases hj : k = j
      · subst hj
        have hi : ¬ k = i := fun hk => h hk.symm
        simp [moveInStore, lookupEntity, hi]
      · by_cases hi : k = i
        · subst hi


          simp [moveInStore, lookupEntity, hj]
        · simp [moveInStore, lookupEntity, hi, hj, ih]

theorem scoreGet_scoreSet_self (l : List (UUID × Int)) (k : UUID) (v : Int) :
    scoreGet (scoreSet l k v) k = v := by
  induction l with
  | nil => simp [scoreSet, scoreGet]
  | cons hd tl ih =>
      obtain ⟨k', v'⟩ := hd
      by_cases h : k' = k
      · simp [scoreSet, h, scoreGet]
      · simp [scoreSet, h, scoreGet, ih]

theorem scoreGet_scoreInc_self (s : List (UUID × Int)) (k : UUID) :
    scoreGet (scoreInc s k) k = scoreGet s k + 1 :=
  scoreGet_scoreSet_self s k _

theorem lookupTime_insert_self (l : List (ActionKey × Int)) (k : ActionKey) (t : Int) :
    lookupTime (insertTime l k t) k = some t := by
  induction l with
  | nil => simp [insertTime, lookupTime]
  | cons hd tl ih =>
      obtain ⟨k', t'⟩ := hd
      by_cases h : k' = k
      · simp [insertTime, h, lookupTime]
      · simp [insertTime, h, lookupTime, ih]

/-- `Mover.Move` never changes the reported identity. -/
theorem Entity.id_moveTo (e : Entity) (c : Coordinate) : (e.moveTo c).id = e.id := by
  cases e <;> rfl

/-! ### The store identity invariant (spec §3) -/

/-- Every key in the Entity Store equals the stored entity's own reported
identity. -/
def StoreInv (game : Game) : Prop :=
  ∀ p ∈ game.Entities, (p.2).id = p.1

theorem lookupEntity_id_of_inv {l : List (UUID × Entity)} {k : UUID} {e : Entity}
    (hinv : ∀ p ∈ l, (p.2).id = p.1) (h : lookupEntity l k = some e) :
    e.id = k := by
  induction l with
  | nil => simp [lookupEntity] at h
  | cons hd tl ih =>
      obtain ⟨k', v'⟩ := hd
      by_cases hk : k' = k
      · subst hk
        simp only [lookupEntity, if_pos rfl] at h
        cases h
        exact hinv (k', e) (List.mem_cons_self _ _)
      · simp only [lookupEntity, if_neg hk] at h
        exact ih (fun p hp => hinv p (List.mem_cons_of_mem _ hp)) h

theorem storeInv_insert {l : List (UUID × Entity)} {k : UUID} {v : Entity}
    (hinv : ∀ p ∈ l, (p.2).id = p.1) (hv : v.id = k) :
    ∀ p ∈ insertEntity l k v, (p.2).id = p.1 := by
  induction l with
  | nil => simpa [insertEntity] using hv
  | cons hd tl ih =>
      obtain ⟨k', v'⟩ := hd
      by_cases h : k' = k
      · intro p hp
        simp only [insertEntity, if_pos h] at hp
        rcases List.mem_cons.mp hp with rfl | hp
        · exact hv
        · exact hinv p (List.mem_cons_of_mem _ hp)
      · intro p hp
        simp only [insertEntity, if_neg h] at hp
        rcases List.mem_cons.mp hp with rfl | hp
        · exact hinv (k', v') (List.mem_cons_self _ _)
        · exact ih (fun q hq => hinv q (List.mem_cons_of_mem _ hq)) p hp

theorem storeInv_erase {l : List (UUID × Entity)} {k : UUID}
    (hinv : ∀ p ∈ l, (p.2).id = p.1) :
    ∀ p ∈ eraseEntity l k, (p.2).id = p.1 := by
  induction l with
  | nil => simp [eraseEntity]
  | cons hd tl ih =>
      obtain ⟨k', v'⟩ := hd
      by_cases h : k' = k
      · simp only [eraseEntity, if_pos h]
        exact ih fun q hq => hinv q (List.mem_cons_of_mem _ hq)
      · intro p hp
        simp only [eraseEntity, if_neg h] at hp
        rcases List.mem_cons.mp hp with rfl | hp
        · exact hinv (k', v') (List.mem_cons_self _ _)
        · exact ih (fun q hq => hinv q (List.mem_cons_of_mem _ hq)) p hp

theorem storeInv_moveInStore {l : List (UUID × Entity)} {i : UUID} {pos : Coordinate}
    (hinv : ∀ p ∈ l, (p.2).id = p.1) :
    ∀ p ∈ moveInStore l i pos, (p.2).id = p.1 := by
  induction l with
  | nil => simp [moveInStore]
  | cons hd tl ih =>
      obtain ⟨k, e⟩ := hd
      by_cases h : k = i
      · intro p hp
        simp only [moveInStore, if_pos h] at hp
        rcases List.mem_cons.mp hp with rfl | hp
        · simpa [Entity.id_moveTo] using hinv (k, e) (List.mem_cons_self _ _)
        · exact hinv p (List.mem_cons_of_mem _ hp)
      · intro p hp
        simp only [moveInStore, if_neg h] at hp
        rcases List.mem_cons.mp hp with rfl | hp
        · exact hinv (k, e) (List.mem_cons_self _ _)
        · exact ih (fun q hq => hinv q (List.mem_cons_of_mem _ hq)) p hp

/-! ### Collision-map construction lemmas -/

theorem bucketAdd_not_mem (acc : List (Coordinate × List Entity)) (c : Coordinate)
    (e : Entity) (h : c ∉ acc.map Prod.fst) :
    bucketAdd acc c e = acc ++ [(c, [e])] := by
  induction acc with
  | nil => rfl
  | cons hd tl ih =>
      obtain ⟨c', es⟩ := hd
      simp only [List.map_cons, List.mem_cons] at h
      push_neg at h
      have h1 : ¬ c' = c := fun hk => h.1 hk.symm
      simp [bucketAdd, h1, ih h.2]

theorem foldl_bucketAdd_singletons (rest : List (UUID × Entity))
    (acc : List (Coordinate × List Entity))
    (hdisj : ∀ q ∈ rest, (q.2).position ∉ acc.map Prod.fst)
    (hdist : rest.Pairwise (fun q q' => (q.2).position ≠ (q'.2).position)) :
    rest.foldl (fun m p => bucketAdd m (p.2).position p.2) acc
      = acc ++ rest.map (fun q => ((q.2).position, [q.2])) := by
  induction rest generalizing acc with
  | nil => simp
  | cons q rest ih =>
      have hd2 := List.pairwise_cons.mp hdist
      have hside : ∀ p ∈ rest,
          (p.2).position ∉ (acc ++ [((q.2).position, [q.2])]).map Prod.fst := by
        intro p hp
        simp only [List.map_append, List.mem_append, List.map_cons, List.map_nil,
          List.mem_singleton, List.mem_cons]
        push_neg
        refine ⟨hdisj p (List.mem_cons_of_mem _ hp), ?_, ?_⟩
        · exact fun hEq => (hd2.1 p hp) hEq.symm
        · exact List.not_mem_nil _
      rw [List.foldl_cons,
        bucketAdd_not_mem acc (q.2).position q.2 (hdisj q (List.mem_cons_self _ _)),
        ih (acc ++ [((q.2).position, [q.2])]) hside hd2.2]
      simp

theorem foldl_resolveBucket_singletons (bs : List (Coordinate × List Entity))
    (acc : Game × List Change) (h : ∀ b ∈ bs, (b.2).length ≤ 1) :
    bs.foldl (fun a p => resolveBucket a p.2) acc = acc := by
  induction bs generalizing acc with
  | nil => rfl
  | cons b bs ih =>
      rw [List.foldl_cons]
      have hb : resolveBucket acc b.2 = acc := by
        simp [resolveBucket, h b (List.mem_cons_self _ _)]
      rw [hb]
      exact ih acc fun q hq => h q (List.mem_cons_of_mem _ hq)

/-! ### One collision tick on a two-entity collision -/

/-- The computation shared by the scoring and the self-damage scenarios: a
store holding a laser (key `lid`, owner `p2`) and a player (key `pid`) at the
same coordinate `c`, plus arbitrary further entities at pairwise distinct
coordinates away from `c`.  One tick removes the laser, respawns the player
at the origin, offers exactly the two corresponding Changes, and increments
`Score[p2]` exactly when the player is not the owner. -/
theorem collisionTick_pair (g : Game) (lid pid p2 : UUID) (c : Coordinate)
    (d : Direction) (r : Nat) (rest : List (UUID × Entity))
    (hE : g.Entities =
      (lid, Entity.laser lid p2 c d) :: (pid, Entity.player pid c r) :: rest)
    (hne : lid ≠ pid)
    (hlid : lid ∉ rest.map Prod.fst)
    (hpos : ∀ q ∈ rest, (q.2).position ≠ c)
    (hdist : rest.Pairwise (fun q q' => (q.2).position ≠ (q'.2).position)) :
    collisionTick g =
      (if pid ≠ p2 then
        ({ g with
            Entities := (pid, Entity.player pid ⟨0, 0⟩ r) :: rest,
            Score := scoreInc g.Score p2 },
         [Change.removeEntityChange (Entity.laser lid p2 c d),
          Change.playerRespawnChange (Entity.player pid ⟨0, 0⟩ r)])
      else
        ({ g with
            Entities := (pid, Entity.player pid ⟨0, 0⟩ r) :: rest },
         [Change.removeEntityChange (Entity.laser lid p2 c d),
          Change.playerRespawnChange (Entity.player pid ⟨0, 0⟩ r)])) := by
  have hside : ∀ q ∈ rest, (q.2).position ∉
      ([(c, [Entity.laser lid p2 c d, Entity.player pid c r])].map Prod.fst) := by
    intro q hq
    simpa using hpos q hq
  have hmap : buildCollisionMap g.Entities =
      (c, [Entity.laser lid p2 c d, Entity.player pid c r])
        :: rest.map (fun q => ((q.2).position, [q.2])) := by
    rw [hE]
    unfold buildCollisionMap
    rw [List.foldl_cons, List.foldl_cons]
    have hstep : bucketAdd
        (bucketAdd [] ((lid, Entity.laser lid p2 c d).2).position
          (lid, Entity.laser lid p2 c d).2)
        (((pid, Entity.player pid c r)).2).position
        ((pid, Entity.player pid c r)).2
        = [(c, [Entity.laser lid p2 c d, Entity.player pid c r])] := by
      simp [bucketAdd, Entity.position]
    rw [hstep, foldl_bucketAdd_singletons rest _ hside hdist]
    simp
  have hremove : eraseEntity g.Entities lid =
      (pid, Entity.player pid c r) :: rest := by
    rw [hE]
    have h2 : ¬ pid = lid := fun hk => hne hk.symm
    simp [eraseEntity, h2, eraseEntity_eq_self rest lid hlid]
  have hmove : moveInStore ((pid, Entity.player pid c r) :: rest) pid ⟨0, 0⟩
      = (pid, Entity.player pid ⟨0, 0⟩ r) :: rest := by
    simp [moveInStore, Entity.moveTo]
  have hbucket : resolveBucket (g, ([] : List Change))
      [Entity.laser lid p2 c d, Entity.player pid c r] =
      (if pid ≠ p2 then
        ({ g with
            Entities := (pid, Entity.player pid ⟨0, 0⟩ r) :: rest,
            Score := scoreInc g.Score p2 },
         [Change.removeEntityChange (Entity.laser lid p2 c d),
          Change.playerRespawnChange (Entity.player pid ⟨0, 0⟩ r)])
      else
        ({ g with
            Entities := (pid, Entity.player pid ⟨0, 0⟩ r) :: rest },
         [Change.removeEntityChange (Entity.laser lid p2 c d),
          Change.playerRespawnChange (Entity.player pid ⟨0, 0⟩ r)])) := by
    rw [resolveBucket, if_neg (by simp)]
    show List.foldl (resolveHit p2) (g, ([] : List Change))
      [Entity.laser lid p2 c d, Entity.player pid c r] = _
    rw [List.foldl_cons, List.foldl_cons, List.foldl_nil]
    have hlaser : resolveHit p2 (g, ([] : List Change)) (Entity.laser lid p2 c d)
        = (g.RemoveEntity lid,
           [Change.removeEntityChange (Entity.laser lid p2 c d)]) := rfl
    rw [hlaser]
    simp only [resolveHit, Game.RemoveEntity, hremove, hmove]
    split
    · rfl
    · rfl
  unfold collisionTick
  rw [hmap]
  simp only [List.foldl_cons]
  rw [hbucket]
  have hsingles : ∀ b ∈ rest.map (fun q => ((q.2).position, [q.2])),
      (b.2).length ≤ 1 := by
    intro b hb
    obtain ⟨q, _, rfl⟩ := List.mem_map.mp hb
    simp
  split
  · exact foldl_resolveBucket_singletons _ _ hsingles
  · exact foldl_resolveBucket_singletons _ _ hsingles

theorem collisionTicks_one (g : Game) : collisionTicks g 1 = collisionTick g := by
  simp [collisionTicks]

/-! ### MoveAction.Perform path lemmas -/

theorem checkLastActionTime_true (g : Game) (key : ActionKey) (now : Int)
    (h : ∀ t, lookupTime g.LastAction key = some t → t + 50 ≤ now) :
    g.CheckLastActionTime key 50 now = true := by
  unfold Game.CheckLastActionTime
  cases hl : lookupTime g.LastAction key with
  | none => rfl
  | some t =>
      have := h t hl
      simp only [decide_eq_true_eq]
      omega

theorem checkLastActionTime_false (g : Game) (key : ActionKey) (now t : Int)
    (hl : lookupTime g.LastAction key = some t) (ht : now - 50 < t) :
    g.CheckLastActionTime key 50 now = false := by
  unfold Game.CheckLastActionTime
  rw [hl]
  simp only [decide_eq_false_iff_not]
  omega

/-- Any successful `Game.Move` call replaced the entry at the key and changed
nothing else. -/
theorem Game_Move_some (g : Game) (i : UUID) (pos : Coordinate) (g' : Game)
    (h : g.Move i pos = some g') :
    g' = { g with Entities := moveInStore g.Entities i pos } := by
  unfold Game.Move at h
  split at h
  · cases h
  · split at h
    · exact (Option.some.inj h).symm
    · cases h

/-- The accepted path of `MoveAction.Perform`: target found, movable, not
throttled.  The hypothesis `hid` is the store identity invariant at the
looked-up key (claim C8). -/
theorem MoveAction_Perform_accepted (a : MoveAction) (g : Game) (now : Int)
    (e : Entity)
    (hget : lookupEntity g.Entities a.ID = some e)
    (hid : e.id = a.ID)
    (hmov : e.movable = true)
    (hthr : ∀ t, lookupTime g.LastAction (moveActionKey a.ID) = some t →
      t + 50 ≤ now) :
    a.Perform g now = some
      ({ g with
          Entities := moveInStore g.Entities a.ID ((e.position).step a.Direction),
          LastAction := insertTime g.LastAction (moveActionKey a.ID) now },
       some (Change.moveChange (e.moveTo ((e.position).step a.Direction))
          a.Direction ((e.position).step a.Direction))) := by
  have hchk : g.CheckLastActionTime (moveActionKey a.ID) 50 now = true :=
    checkLastActionTime_true g _ now hthr
  have hmv : g.Move a.ID ((e.position).step a.Direction) =
      some { g with
        Entities := moveInStore g.Entities a.ID ((e.position).step a.Direction) } := by
    unfold Game.Move
    rw [hget]
    simp [hmov]
  simp only [MoveAction.Perform, hget, hid, hchk, if_true, hmv,
    Game.UpdateLastActionTime]

/-- The silent no-op paths of `MoveAction.Perform`: unknown entity, or
throttled. -/
theorem MoveAction_Perform_noop (a : MoveAction) (g : Game) (now : Int)
    (h : lookupEntity g.Entities a.ID = none ∨
      ∃ e t, lookupEntity g.Entities a.ID = some e ∧
        lookupTime g.LastAction (moveActionKey e.id) = some t ∧ now - 50 < t) :
    a.Perform g now = some (g, none) := by
  rcases h with h | ⟨e, t, hget, hl, ht⟩
  · simp [MoveAction.Perform, h]
  · have hchk : g.CheckLastActionTime (moveActionKey e.id) 50 now = false :=
      checkLastActionTime_false g _ now t hl ht
    simp [MoveAction.Perform, hget, hchk]

/-- Inversion of a `MoveAction.Perform` call that offered a Change: the
target was found, and afterwards the store still holds an entity with the
same reported identity at the action's key while the throttle table stamps
that identity's key with the call time. -/
theorem MoveAction_Perform_emits (a : MoveAction) (g : Game) (now : Int)
    (g1 : Game) (ch : Change) (h : a.Perform g now = some (g1, some ch)) :
    ∃ e f, lookupEntity g.Entities a.ID = some e ∧
      lookupEntity g1.Entities a.ID = some f ∧ f.id = e.id ∧
      lookupTime g1.LastAction (moveActionKey e.id) = some now := by
  unfold MoveAction.Perform at h
  cases hget : lookupEntity g.Entities a.ID with
  | none => rw [hget] at h; simp at h
  | some e =>
      rw [hget] at h
      simp only at h
      by_cases hchk : g.CheckLastActionTime (moveActionKey e.id) 50 now = true
      · rw [if_pos hchk] at h
        cases hmv : g.Move e.id ((e.position).step a.Direction) with
        | none => rw [hmv] at h; simp at h
        | some gm =>
            rw [hmv] at h
            simp only [Option.some.injEq, Prod.mk.injEq] at h
            obtain ⟨hg1, -⟩ := h
            have hgm := Game_Move_some g e.id _ gm hmv
            have hgmE : gm.Entities =
                moveInStore g.Entities e.id ((e.position).step a.Direction) := by
              rw [hgm]
            have hg1E : g1.Entities = gm.Entities := by rw [← hg1]; rfl
            have hg1L : g1.LastAction =
                insertTime gm.LastAction (moveActionKey e.id) now := by
              rw [← hg1]; rfl
            have hstamp : lookupTime g1.LastAction (moveActionKey e.id)
                = some now := by
              rw [hg1L]; exact lookupTime_insert_self _ _ _
            by_cases hei : a.ID = e.id
            · refine ⟨e, e.moveTo ((e.position).step a.Direction), rfl,
                ?_, Entity.id_moveTo _ _, hstamp⟩
              rw [hg1E, hgmE, hei, lookupEntity_moveInStore_self, ← hei, hget]
              rfl
            · refine ⟨e, e, rfl, ?_, rfl, hstamp⟩
              rw [hg1E, hgmE, lookupEntity_moveInStore_ne _ _ _ _ hei, hget]
      · rw [if_neg hchk] at h
        simp at h

/-! ### Frame lemmas for the `IsAuthoritative` flag -/

theorem resolveHit_IsAuthoritative (o : UUID) (acc : Game × List Change)
    (e : Entity) :
    (((resolveHit o acc e)).1).IsAuthoritative = ((acc.1)).IsAuthoritative := by
  cases e with
  | laser i ow p d => rfl
  | player i p r =>
      simp only [resolveHit]
      split
      · rfl
      · rfl

theorem foldl_resolveHit_IsAuthoritative (o : UUID) (es : List Entity) :
    ∀ acc : Game × List Change,
      (((es.foldl (resolveHit o) acc)).1).IsAuthoritative
        = ((acc.1)).IsAuthoritative := by
  induction es with
  | nil => intro acc; rfl
  | cons e es ih =>
      intro acc
      rw [List.foldl_cons, ih, resolveHit_IsAuthoritative]

theorem resolveBucket_IsAuthoritative (acc : Game × List Change)
    (es : List Entity) :
    (((resolveBucket acc es)).1).IsAuthoritative = ((acc.1)).IsAuthoritative := by
  unfold resolveBucket
  split
  · rfl
  · split
    · rfl
    · exact foldl_resolveHit_IsAuthoritative _ _ _

theorem collisionTick_IsAuthoritative (g : Game) :
    (((collisionTick g)).1).IsAuthoritative = g.IsAuthoritative := by
  unfold collisionTick
  generalize buildCollisionMap g.Entities = bs
  suffices hgen : ∀ (bs : List (Coordinate × List Entity)) (acc : Game × List Change),
      (((bs.foldl (fun a p => resolveBucket a p.2) acc)).1).IsAuthoritative
        = ((acc.1)).IsAuthoritative by
    exact hgen bs (g, [])
  intro bs
  induction bs with
  | nil => intro acc; rfl
  | cons b bs ih =>
      intro acc
      rw [List.foldl_cons, ih, resolveBucket_IsAuthoritative]

theorem collisionTicks_IsAuthoritative (n : Nat) :
    ∀ g : Game, (((collisionTicks g n)).1).IsAuthoritative = g.IsAuthoritative := by
  induction n with
  | zero => intro g; rfl
  | succ n ih =>
      intro g
      show (((collisionTicks (collisionTick g).1 n)).1).IsAuthoritative = _
      rw [ih, collisionTick_IsAuthoritative]

theorem startCollisionLoop_IsAuthoritative (g : Game) (n : Nat) :
    (((startCollisionLoop g n)).1).IsAuthoritative = g.IsAuthoritative := by
  unfold startCollisionLoop
  split
  · exact collisionTicks_IsAuthoritative n g
  · rfl

/-! ### Claim theorems -/

/-- C1: for every game state whose Entity Store contains, at one shared
coordinate, a Laser owned by player `p2` and a Player with identity `pid`
where `pid` differs from `p2` (and whatever further entities sit alone on
other coordinates), one tick of the Collision Loop on an authoritative
instance removes the Laser from the store (offering a `RemoveEntityChange`),
moves the Player to the origin (offering a `PlayerRespawnChange`), and
increments `Score[p2]` by exactly 1. -/
theorem C1_collision_credit (g : Game) (lid pid p2 : UUID) (c : Coordinate)
    (d : Direction) (r : Nat) (rest : List (UUID × Entity))
    (hauth : g.IsAuthoritative = true)
    (hE : g.Entities =
      (lid, Entity.laser lid p2 c d) :: (pid, Entity.player pid c r) :: rest)
    (hp : pid ≠ p2)
    (hne : lid ≠ pid)
    (hlid : lid ∉ rest.map Prod.fst)
    (hpos : ∀ q ∈ rest, (q.2).position ≠ c)
    (hdist : rest.Pairwise (fun q q' => (q.2).position ≠ (q'.2).position)) :
    startCollisionLoop g 1 =
      ({ g with
          Entities := (pid, Entity.player pid ⟨0, 0⟩ r) :: rest,
          Score := scoreInc g.Score p2 },
       [Change.removeEntityChange (Entity.laser lid p2 c d),
        Change.playerRespawnChange (Entity.player pid ⟨0, 0⟩ r)]) ∧
    lookupEntity (((startCollisionLoop g 1)).1).Entities lid = none ∧
    lookupEntity (((startCollisionLoop g 1)).1).Entities pid
      = some (Entity.player pid ⟨0, 0⟩ r) ∧
    scoreGet (((startCollisionLoop g 1)).1).Score p2 = scoreGet g.Score p2 + 1 := by
  have h1 : startCollisionLoop g 1 =
      ({ g with
          Entities := (pid, Entity.player pid ⟨0, 0⟩ r) :: rest,
          Score := scoreInc g.Score p2 },
       [Change.removeEntityChange (Entity.laser lid p2 c d),
        Change.playerRespawnChange (Entity.player pid ⟨0, 0⟩ r)]) := by
    unfold startCollisionLoop
    rw [if_pos hauth, collisionTicks_one,
      collisionTick_pair g lid pid p2 c d r rest hE hne hlid hpos hdist,
      if_pos hp]
  refine ⟨h1, ?_, ?_, ?_⟩
  · rw [h1]
    have h2 : ¬ pid = lid := fun hk => hne hk.symm
    simp only [lookupEntity, if_neg h2]
    exact lookupEntity_eq_none rest lid hlid
  · rw [h1]
    simp [lookupEntity]
  · rw [h1]
    exact scoreGet_scoreInc_self g.Score p2

/-- Witness for C1 at a concrete input: a laser of player 20 and player 2
share the cell (3, 4). -/
theorem C1_collision_credit_witness :
    startCollisionLoop
      { Entities := [(1, Entity.laser 1 20 ⟨3, 4⟩ Direction.DirectionUp),
                     (2, Entity.player 2 ⟨3, 4⟩ 0)],
        LastAction := [], Score := [], IsAuthoritative := true } 1 =
      ({ Entities := [(2, Entity.player 2 ⟨0, 0⟩ 0)],
         LastAction := [], Score := [(20, 1)], IsAuthoritative := true },
       [Change.removeEntityChange (Entity.laser 1 20 ⟨3, 4⟩ Direction.DirectionUp),
        Change.playerRespawnChange (Entity.player 2 ⟨0, 0⟩ 0)]) := by
  have h := C1_collision_credit
    { Entities := [(1, Entity.laser 1 20 ⟨3, 4⟩ Direction.DirectionUp),
                   (2, Entity.player 2 ⟨3, 4⟩ 0)],
      LastAction := [], Score := [], IsAuthoritative := true }
    1 2 20 ⟨3, 4⟩ Direction.DirectionUp 0 []
    rfl rfl (by decide) (by decide) (by simp) (by simp) List.Pairwise.nil
  rw [h.1]
  rfl

/-- C4: when the co-located Laser is owned by the hit Player itself
(self-damage), one Collision Loop tick still removes the laser, moves the
Player to the origin and offers the `PlayerRespawnChange`, but the Score
mapping is left entirely unchanged. -/
theorem C4_self_damage (g : Game) (lid pid : UUID) (c : Coordinate)
    (d : Direction) (r : Nat) (rest : List (UUID × Entity))
    (hauth : g.IsAuthoritative = true)
    (hE : g.Entities =
      (lid, Entity.laser lid pid c d) :: (pid, Entity.player pid c r) :: rest)
    (hne : lid ≠ pid)
    (hlid : lid ∉ rest.map Prod.fst)
    (hpos : ∀ q ∈ rest, (q.2).position ≠ c)
    (hdist : rest.Pairwise (fun q q' => (q.2).position ≠ (q'.2).position)) :
    startCollisionLoop g 1 =
      ({ g with Entities := (pid, Entity.player pid ⟨0, 0⟩ r) :: rest },
       [Change.removeEntityChange (Entity.laser lid pid c d),
        Change.playerRespawnChange (Entity.player pid ⟨0, 0⟩ r)]) ∧
    (((startCollisionLoop g 1)).1).Score = g.Score ∧
    lookupEntity (((startCollisionLoop g 1)).1).Entities pid
      = some (Entity.player pid ⟨0, 0⟩ r) := by
  have h1 : startCollisionLoop g 1 =
      ({ g with Entities := (pid, Entity.player pid ⟨0, 0⟩ r) :: rest },
       [Change.removeEntityChange (Entity.laser lid pid c d),
        Change.playerRespawnChange (Entity.player pid ⟨0, 0⟩ r)]) := by
    unfold startCollisionLoop
    rw [if_pos hauth, collisionTicks_one,
      collisionTick_pair g lid pid pid c d r rest hE hne hlid hpos hdist,
      if_neg (by simp)]
  refine ⟨h1, ?_, ?_⟩
  · rw [h1]
  · rw [h1]
    simp [lookupEntity]

/-- Witness for C4 at a concrete input: player 2 stands in its own laser's
cell; the score table is untouched. -/
theorem C4_self_damage_witness :
    startCollisionLoop
      { Entities := [(1, Entity.laser 1 2 ⟨3, 4⟩ Direction.DirectionUp),
                     (2, Entity.player 2 ⟨3, 4⟩ 0)],
        LastAction := [], Score := [(2, 7)], IsAuthoritative := true } 1 =
      ({ Entities := [(2, Entity.player 2 ⟨0, 0⟩ 0)],
         LastAction := [], Score := [(2, 7)], IsAuthoritative := true },
       [Change.removeEntityChange (Entity.laser 1 2 ⟨3, 4⟩ Direction.DirectionUp),
        Change.playerRespawnChange (Entity.player 2 ⟨0, 0⟩ 0)]) := by
  have h := C4_self_damage
    { Entities := [(1, Entity.laser 1 2 ⟨3, 4⟩ Direction.DirectionUp),
                   (2, Entity.player 2 ⟨3, 4⟩ 0)],
      LastAction := [], Score := [(2, 7)], IsAuthoritative := true }
    1 2 ⟨3, 4⟩ Direction.DirectionUp 0 []
    rfl rfl (by decide) (by simp) (by simp) List.Pairwise.nil
  rw [h.1]

/-- C2: a `MoveAction` whose target entity is present (and movable, i.e. a
Player: `Game.Move` on a non-movable target is fatal rather than a move) and
whose throttle key has no accepted action within the last 50 ms moves the
entity exactly one grid cell in the requested Direction, writes the new
position into the store, and offers a `MoveChange` carrying the entity, the
requested direction and the resulting position; `DirectionStop` causes no
displacement.  The `hinv` hypothesis is the store identity invariant
(claim C8), which every store built through `AddEntity`/`UpdateEntity`
satisfies. -/
theorem C2_move_accepted (g : Game) (a : MoveAction) (now : Int) (e : Entity)
    (hinv : StoreInv g)
    (hget : lookupEntity g.Entities a.ID = some e)
    (hmov : e.movable = true)
    (hthr : ∀ t, lookupTime g.LastAction (moveActionKey a.ID) = some t →
      t + 50 ≤ now) :
    a.Perform g now = some
      ({ g with
          Entities := moveInStore g.Entities a.ID ((e.position).step a.Direction),
          LastAction := insertTime g.LastAction (moveActionKey a.ID) now },
       some (Change.moveChange (e.moveTo ((e.position).step a.Direction))
          a.Direction ((e.position).step a.Direction))) ∧
    (∀ g1 ch, a.Perform g now = some (g1, ch) →
      lookupEntity g1.Entities a.ID
        = some (e.moveTo ((e.position).step a.Direction))) ∧
    ((e.position).step Direction.DirectionUp
        = { e.position with Y := (e.position).Y - 1 } ∧
     (e.position).step Direction.DirectionDown
        = { e.position with Y := (e.position).Y + 1 } ∧
     (e.position).step Direction.DirectionLeft
        = { e.position with X := (e.position).X - 1 } ∧
     (e.position).step Direction.DirectionRight
        = { e.position with X := (e.position).X + 1 } ∧
     (e.position).step Direction.DirectionStop = e.position) := by
  have hid : e.id = a.ID := lookupEntity_id_of_inv hinv hget
  have hmain := MoveAction_Perform_accepted a g now e hget hid hmov hthr
  refine ⟨hmain, ?_, rfl, rfl, rfl, rfl, rfl⟩
  intro g1 ch hcall
  rw [hmain] at hcall
  simp only [Option.some.injEq, Prod.mk.injEq] at hcall
  obtain ⟨hg1, -⟩ := hcall
  rw [← hg1]
  show lookupEntity
    (moveInStore g.Entities a.ID ((e.position).step a.Direction)) a.ID
    = some (e.moveTo ((e.position).step a.Direction))
  rw [lookupEntity_moveInStore_self, hget]
  rfl

/-- Witness for C2 at a concrete input: player 2 at (3, 4) moves up to
(3, 3). -/
theorem C2_move_accepted_witness :
    MoveAction.Perform ⟨Direction.DirectionUp, 2⟩
      { Entities := [(2, Entity.player 2 ⟨3, 4⟩ 0)],
        LastAction := [], Score := [], IsAuthoritative := true } 100 = some
      ({ Entities := [(2, Entity.player 2 ⟨3, 3⟩ 0)],
         LastAction := [(("backend.MoveAction", 2), 100)],
         Score := [], IsAuthoritative := true },
       some (Change.moveChange (Entity.player 2 ⟨3, 3⟩ 0)
          Direction.DirectionUp ⟨3, 3⟩)) := by
  have h := C2_move_accepted
    { Entities := [(2, Entity.player 2 ⟨3, 4⟩ 0)],
      LastAction := [], Score := [], IsAuthoritative := true }
    ⟨Direction.DirectionUp, 2⟩ 100 (Entity.player 2 ⟨3, 4⟩ 0)
    (by simp [StoreInv, Entity.id]) rfl rfl (by simp [lookupTime])
  rw [h.1]
  rfl

/-- C3: a `MoveAction` referencing an unknown entity ID, or arriving while
its throttle key's last-accepted timestamp is less than 50 ms in the past,
is a silent no-op (state unchanged, no Change offered); in particular, when
an accepted `MoveAction` (one that offered a Change) is followed under 50 ms
later by a `MoveAction` with the same target ID, the second produces no
state change and no Change. -/
theorem C3_move_noop (a : MoveAction) (g : Game) (now now1 now2 : Int) :
    ((lookupEntity g.Entities a.ID = none ∨
      ∃ e t, lookupEntity g.Entities a.ID = some e ∧
        lookupTime g.LastAction (moveActionKey e.id) = some t ∧ now - 50 < t) →
      a.Perform g now = some (g, none)) ∧
    (∀ g1 ch, a.Perform g now1 = some (g1, some ch) → now2 - now1 < 50 →
      a.Perform g1 now2 = some (g1, none)) := by
  constructor
  · exact MoveAction_Perform_noop a g now
  · intro g1 ch hfirst hlt
    obtain ⟨e, f, -, hgetf, hfid, hstamp⟩ :=
      MoveAction_Perform_emits a g now1 g1 ch hfirst
    refine MoveAction_Perform_noop a g1 now2 (Or.inr ⟨f, now1, hgetf, ?_, ?_⟩)
    · rw [hfid]
      exact hstamp
    · omega

/-- Witness for C3 at concrete inputs: an action on the missing ID 9 is a
no-op, and a second move of player 2 only 10 ms after an accepted one is
dropped. -/
theorem C3_move_noop_witness :
    MoveAction.Perform ⟨Direction.DirectionUp, 9⟩
      { Entities := [(2, Entity.player 2 ⟨3, 4⟩ 0)],
        LastAction := [], Score := [], IsAuthoritative := true } 100 = some
      ({ Entities := [(2, Entity.player 2 ⟨3, 4⟩ 0)],
         LastAction := [], Score := [], IsAuthoritative := true }, none) ∧
    MoveAction.Perform ⟨Direction.DirectionUp, 2⟩
      { Entities := [(2, Entity.player 2 ⟨3, 3⟩ 0)],
        LastAction := [(("backend.MoveAction", 2), 100)],
        Score := [], IsAuthoritative := true } 110 = some
      ({ Entities := [(2, Entity.player 2 ⟨3, 3⟩ 0)],
         LastAction := [(("backend.MoveAction", 2), 100)],
         Score := [], IsAuthoritative := true }, none) := by
  constructor
  · exact (C3_move_noop ⟨Direction.DirectionUp, 9⟩
      { Entities := [(2, Entity.player 2 ⟨3, 4⟩ 0)],
        LastAction := [], Score := [], IsAuthoritative := true }
      100 0 0).1 (Or.inl rfl)
  · exact (C3_move_noop ⟨Direction.DirectionUp, 2⟩
      { Entities := [(2, Entity.player 2 ⟨3, 4⟩ 0)],
        LastAction := [], Score := [], IsAuthoritative := true }
      0 100 110).2
      ({ Entities := [(2, Entity.player 2 ⟨3, 3⟩ 0)],
         LastAction := [(("backend.MoveAction", 2), 100)],
         Score := [], IsAuthoritative := true })
      (Change.moveChange (Entity.player 2 ⟨3, 3⟩ 0)
        Direction.DirectionUp ⟨3, 3⟩)
      (by decide) (by decide)

/-- C5: the non-blocking send on the single-slot Change channel never blocks
and drops the new Change when the slot already holds an undelivered one: the
held Change stays, nothing is overwritten or queued; hence of two Changes
sent back-to-back with no consumer read in between, only the first is
observable. -/
theorem C5_lossy_change_channel (old ch ch1 ch2 : Change) :
    trySendChange (some old) ch = some old ∧
    trySendChange none ch1 = some ch1 ∧
    trySendChange (trySendChange none ch1) ch2 = some ch1 := by
  exact ⟨rfl, rfl, rfl⟩

/-- C6: a non-authoritative instance never starts the Collision Loop: over a
run of any length, whatever entities the store holds, the state (Score
included) is untouched and no collision-derived Change is offered. -/
theorem C6_non_authoritative (g : Game) (n : Nat)
    (h : g.IsAuthoritative = false) :
    startCollisionLoop g n = (g, []) ∧
    (((startCollisionLoop g n)).1).Score = g.Score ∧
    ((startCollisionLoop g n)).2 = [] := by
  have h1 : startCollisionLoop g n = (g, []) := by
    unfold startCollisionLoop
    rw [if_neg (by simp [h])]
  exact ⟨h1, by rw [h1], by rw [h1]⟩

/-- Witness for C6 at a concrete input: a client-side game with a live
collision pair, observed for 5 ticks. -/
theorem C6_non_authoritative_witness :
    startCollisionLoop
      { Entities := [(1, Entity.laser 1 20 ⟨3, 4⟩ Direction.DirectionUp),
                     (2, Entity.player 2 ⟨3, 4⟩ 0)],
        LastAction := [], Score := [], IsAuthoritative := false } 5 =
      ({ Entities := [(1, Entity.laser 1 20 ⟨3, 4⟩ Direction.DirectionUp),
                      (2, Entity.player 2 ⟨3, 4⟩ 0)],
         LastAction := [], Score := [], IsAuthoritative := false }, []) :=
  (C6_non_authoritative
    { Entities := [(1, Entity.laser 1 20 ⟨3, 4⟩ Direction.DirectionUp),
                   (2, Entity.player 2 ⟨3, 4⟩ 0)],
      LastAction := [], Score := [], IsAuthoritative := false } 5 rfl).1

/-- C7: under the documented precondition (the id is present and the stored
entity supports movement) `Game.Move` succeeds — the fatal branch is
unreachable — and it updates exactly that entity's position, leaving every
other component of the state unchanged. -/
theorem C7_move_contract (g : Game) (i : UUID) (pos : Coordinate) (e : Entity)
    (hget : lookupEntity g.Entities i = some e)
    (hmov : e.movable = true) :
    g.Move i pos = some { g with Entities := moveInStore g.Entities i pos } ∧
    (∀ g', g.Move i pos = some g' →
      lookupEntity g'.Entities i = some (e.moveTo pos) ∧
      g'.Score = g.Score ∧ g'.LastAction = g.LastAction ∧
      g'.IsAuthoritative = g.IsAuthoritative ∧
      (∀ j, j ≠ i → lookupEntity g'.Entities j = lookupEntity g.Entities j)) := by
  have h1 : g.Move i pos =
      some { g with Entities := moveInStore g.Entities i pos } := by
    unfold Game.Move
    rw [hget]
    simp [hmov]
  refine ⟨h1, ?_⟩
  intro g' hcall
  rw [h1] at hcall
  cases hcall
  refine ⟨?_, rfl, rfl, rfl, ?_⟩
  · show lookupEntity (moveInStore g.Entities i pos) i = some (e.moveTo pos)
    rw [lookupEntity_moveInStore_self, hget]
    rfl
  · intro j hj
    exact lookupEntity_moveInStore_ne g.Entities j i pos hj

/-- Witness for C7 at a concrete input: moving player 2 to (1, 1). -/
theorem C7_move_contract_witness :
    Game.Move
      { Entities := [(2, Entity.player 2 ⟨3, 4⟩ 0)],
        LastAction := [], Score := [], IsAuthoritative := true } 2 ⟨1, 1⟩ =
      some { Entities := [(2, Entity.player 2 ⟨1, 1⟩ 0)],
             LastAction := [], Score := [], IsAuthoritative := true } :=
  (C7_move_contract
    { Entities := [(2, Entity.player 2 ⟨3, 4⟩ 0)],
      LastAction := [], Score := [], IsAuthoritative := true }
    2 ⟨1, 1⟩ (Entity.player 2 ⟨3, 4⟩ 0) rfl rfl).1

/-- C8: after `AddEntity e` the store maps the key `e.ID()` to `e` (so
`GetEntity (e.ID())` returns an entity whose reported identity is `e.ID()`),
and the identity invariant — every key equals the stored entity's reported
identity — is preserved by `AddEntity`, `UpdateEntity`, `RemoveEntity` and
`Move`. -/
theorem C8_store_identity (g : Game) (e : Entity) (i : UUID) (pos : Coordinate) :
    (g.AddEntity e).GetEntity e.id = some e ∧
    (StoreInv g → StoreInv (g.AddEntity e)) ∧
    (StoreInv g → StoreInv (g.UpdateEntity e)) ∧
    (StoreInv g → StoreInv (g.RemoveEntity i)) ∧
    (StoreInv g → ∀ g', g.Move i pos = some g' → StoreInv g') := by
  refine ⟨?_, ?_, ?_, ?_, ?_⟩
  · exact lookupEntity_insert_self g.Entities e.id e
  · intro hinv
    exact storeInv_insert hinv rfl
  · intro hinv
    exact storeInv_insert hinv rfl
  · intro hinv
    exact storeInv_erase hinv
  · intro hinv g' hcall
    rw [Game_Move_some g i pos g' hcall]
    exact storeInv_moveInStore hinv

/-- Witness for C8 at a concrete input: adding player 2 to a one-laser
store keeps the identity invariant, and the new key reads back the player. -/
theorem C8_store_identity_witness :
    Game.GetEntity
      (Game.AddEntity
        { Entities := [(1, Entity.laser 1 20 ⟨3, 4⟩ Direction.DirectionUp)],
          LastAction := [], Score := [], IsAuthoritative := true }
        (Entity.player 2 ⟨3, 4⟩ 0)) 2 = some (Entity.player 2 ⟨3, 4⟩ 0) ∧
    StoreInv (Game.AddEntity
      { Entities := [(1, Entity.laser 1 20 ⟨3, 4⟩ Direction.DirectionUp)],
        LastAction := [], Score := [], IsAuthoritative := true }
      (Entity.player 2 ⟨3, 4⟩ 0)) := by
  have h := C8_store_identity
    { Entities := [(1, Entity.laser 1 20 ⟨3, 4⟩ Direction.DirectionUp)],
      LastAction := [], Score := [], IsAuthoritative := true }
    (Entity.player 2 ⟨3, 4⟩ 0) 0 ⟨0, 0⟩
  exact ⟨h.1, h.2.1 (by simp [StoreInv, Entity.id])⟩

/-- Any `MoveAction.Perform` call that returns (does not panic) leaves the
`IsAuthoritative` flag untouched. -/
theorem MoveAction_Perform_IsAuthoritative (a : MoveAction) (g : Game)
    (now : Int) (res : Game × Option Change) (h : a.Perform g now = some res) :
    ((res.1)).IsAuthoritative = g.IsAuthoritative := by
  unfold MoveAction.Perform at h
  cases hget : lookupEntity g.Entities a.ID with
  | none =>
      rw [hget] at h
      injection h with h2
      rw [← h2]
  | some e =>
      rw [hget] at h
      simp only at h
      by_cases hchk : g.CheckLastActionTime (moveActionKey e.id) 50 now = true
      · rw [if_pos hchk] at h
        cases hmv : g.Move e.id ((e.position).step a.Direction) with
        | none => rw [hmv] at h; cases h
        | some gm =>
            rw [hmv] at h
            injection h with h2
            rw [← h2]
            show ((gm.UpdateLastActionTime (moveActionKey e.id) now)).IsAuthoritative
              = g.IsAuthoritative
            rw [Game_Move_some g e.id _ gm hmv]
            rfl
      · rw [if_neg hchk] at h
        injection h with h2
        rw [← h2]

/-- C9 counterexample: the claim says no caller changes the flag after
construction, but the client process (`src/cmd/client.go`) constructs the
game with `NewGame` (flag `true`) and immediately reassigns the public field
to `false`, so the observed flag differs from the constructed one. -/
theorem C9_authoritative_counterexample :
    clientGame.IsAuthoritative ≠ NewGame.IsAuthoritative ∧
    NewGame.IsAuthoritative = true ∧
    clientGame.IsAuthoritative = false := by
  refine ⟨?_, rfl, rfl⟩
  decide

/-- C9 (amended): `NewGame` always constructs the flag as `true`, and no
operation of the engine itself (`AddEntity`, `UpdateEntity`, `RemoveEntity`,
`Move`, `UpdateLastActionTime`, `MoveAction.Perform`, the collision loop)
ever changes it; but the field is public and caller-mutable, and the client
reassigns it to `false` right after construction. -/
theorem C9_authoritative_frame (g : Game) (e : Entity) (i : UUID)
    (pos : Coordinate) (a : MoveAction) (now : Int) (n : Nat) :
    NewGame.IsAuthoritative = true ∧
    clientGame.IsAuthoritative = false ∧
    ((g.AddEntity e)).IsAuthoritative = g.IsAuthoritative ∧
    ((g.UpdateEntity e)).IsAuthoritative = g.IsAuthoritative ∧
    ((g.RemoveEntity i)).IsAuthoritative = g.IsAuthoritative ∧
    (∀ g', g.Move i pos = some g' → g'.IsAuthoritative = g.IsAuthoritative) ∧
    ((g.UpdateLastActionTime (moveActionKey i) now)).IsAuthoritative
      = g.IsAuthoritative ∧
    (∀ res, a.Perform g now = some res →
      ((res.1)).IsAuthoritative = g.IsAuthoritative) ∧
    (((startCollisionLoop g n)).1).IsAuthoritative = g.IsAuthoritative := by
  refine ⟨rfl, rfl, rfl, rfl, rfl, ?_, rfl, ?_,
    startCollisionLoop_IsAuthoritative g n⟩
  · intro g' h
    rw [Game_Move_some g i pos g' h]
  · exact MoveAction_Perform_IsAuthoritative a g now

/-- Witness for C9 (amended) at concrete inputs: moving a player and
performing an action on the client-side game leave its flag `false`. -/
theorem C9_authoritative_frame_witness :
    NewGame.IsAuthoritative = true ∧
    clientGame.IsAuthoritative = false ∧
    Game.IsAuthoritative
      { Entities := [(2, Entity.player 2 ⟨1, 1⟩ 0)],
        LastAction := [], Score := [], IsAuthoritative := false }
      = Game.IsAuthoritative
      { Entities := [(2, Entity.player 2 ⟨3, 4⟩ 0)],
        LastAction := [], Score := [], IsAuthoritative := false } ∧
    Game.IsAuthoritative clientGame = Game.IsAuthoritative clientGame := by
  have h := C9_authoritative_frame
    { Entities := [(2, Entity.player 2 ⟨3, 4⟩ 0)],
      LastAction := [], Score := [], IsAuthoritative := false }
    (Entity.player 2 ⟨3, 4⟩ 0) 2 ⟨1, 1⟩ ⟨Direction.DirectionUp, 9⟩ 0 3
  have hperf := (C9_authoritative_frame clientGame
    (Entity.player 2 ⟨3, 4⟩ 0) 2 ⟨1, 1⟩ ⟨Direction.DirectionUp, 9⟩ 0
    3).2.2.2.2.2.2.2.1 (clientGame, none) (by decide)
  exact ⟨h.1, h.2.1,
    h.2.2.2.2.2.1
      { Entities := [(2, Entity.player 2 ⟨1, 1⟩ 0)],
        LastAction := [], Score := [], IsAuthoritative := false }
      (by decide),
    hperf⟩

/-- C10: `AddEntity` and `UpdateEntity` are extensionally equal — both
replace the Entity Store entry at key `entity.ID()` with the entity and
leave every other component untouched, producing identical states; in
particular an `UpdateEntity` of an absent entity inserts it exactly as
`AddEntity` does, and the inserted key reads back the entity. -/
theorem C10_add_update_equal (g : Game) (e : Entity) :
    g.AddEntity e = g.UpdateEntity e ∧
    ((g.UpdateEntity e)).Entities = insertEntity g.Entities e.id e ∧
    ((g.UpdateEntity e)).Score = g.Score ∧
    ((g.UpdateEntity e)).LastAction = g.LastAction ∧
    ((g.UpdateEntity e)).IsAuthoritative = g.IsAuthoritative ∧
    (g.UpdateEntity e).GetEntity e.id = some e := by
  exact ⟨rfl, rfl, rfl, rfl, rfl, lookupEntity_insert_self g.Entities e.id e⟩
